import Mathlib

set_option autoImplicit false

namespace CsvPipeline

/-! ## Definitions: the embedded program -/

/-- One step of Python text-mode line iteration: the characters read so far on
the current line are accumulated (in reverse) in `acc`; each `'\n'` closes a
line keeping its terminator, and a non-empty final accumulator becomes a last
line without a terminator. -/
def splitLinesAux : List Char → List Char → List (List Char)
  | acc, [] => if acc.isEmpty then [] else [acc.reverse]
  | acc, c :: rest =>
    if c = '\n' then (acc.reverse ++ ['\n']) :: splitLinesAux [] rest
    else splitLinesAux (c :: acc) rest

/-- Python `for line in f` over a text file whose (already decoded,
newline-translated) contents are `s`: the lines of `s`, each keeping its
trailing `'\n'` except possibly the last. -/
def pyFileLines (s : String) : List String :=
  (splitLinesAux [] s.data).map String.mk

/-- Python `str.rstrip("\n")`: remove every trailing `'\n'`. -/
def pyRstripNL (l : List Char) : List Char :=
  (l.reverse.dropWhile (fun c => c = '\n')).reverse

/-- The map `pyRstripNL` lifted to `String`. -/
def pyRstrip (s : String) : String :=
  String.mk (pyRstripNL s.data)

/-- Python `pathlib.PurePath.suffix` of a base name: `name[i:]` where `i` is
the index of the last `'.'`, provided `0 < i < len(name) - 1`, else `""`. -/
def pySuffix (name : List Char) : List Char :=
  let after := name.reverse.takeWhile (fun c => c ≠ '.')
  if after.length = name.length then []
  else
    let i := name.length - 1 - after.length
    if 0 < i ∧ i < name.length - 1 then name.drop i else []

/-- Python `pathlib.PurePath.stem`: the base name minus its suffix. -/
def pyStem (name : List Char) : List Char :=
  name.take (name.length - (pySuffix name).length)

/-- ASCII lower-casing of one character.  Python's `str.lower()` is
full-Unicode, but the script only ever compares a lowered string against the
ASCII literal `".csv"`, and no non-ASCII character lower-cases to `'.'`, `'c'`,
`'s'` or `'v'`, so ASCII lowering is an exact model of that comparison. -/
def pyLowerChar (c : Char) : Char :=
  if 'A' ≤ c ∧ c ≤ 'Z' then Char.ofNat (c.toNat + 32) else c

/-- ASCII model of Python `str.lower()`. -/
def pyLower (l : List Char) : List Char :=
  l.map pyLowerChar

/-- Standard UTF-8 encoding of one scalar value, as Python
`str.encode("utf-8")` produces for each character. -/
def utf8EncodeCharNat (c : Char) : List Nat :=
  let n := c.toNat
  if n < 0x80 then [n]
  else if n < 0x800 then
    [0xC0 + n / 0x40, 0x80 + n % 0x40]
  else if n < 0x10000 then
    [0xE0 + n / 0x1000, 0x80 + n / 0x40 % 0x40, 0x80 + n % 0x40]
  else
    [0xF0 + n / 0x40000, 0x80 + n / 0x1000 % 0x40, 0x80 + n / 0x40 % 0x40,
      0x80 + n % 0x40]

/-- Python `s.encode("utf-8")` as a byte (as `Nat`) list. -/
def utf8Bytes (s : String) : List Nat :=
  s.data.flatMap utf8EncodeCharNat

/-- Python string `<` (lexicographic by code point; a strict prefix is
smaller), which also orders `pathlib.Path` values that differ only in their
final component — exactly the comparisons `sorted(Path(...).iterdir())`
performs on the entries of one directory. -/
def pyStrLt : List Char → List Char → Bool
  | _, [] => false
  | [], _ :: _ => true
  | a :: as, b :: bs =>
    if a.toNat < b.toNat then true
    else if b.toNat < a.toNat then false
    else pyStrLt as bs

/-- Python `a <= b` on strings, as `not (b < a)`. -/
def pyStrLe (a b : List Char) : Bool :=
  !pyStrLt b a

/-- Shape of one line yielded by Python text-mode file iteration: either a
body free of `'\n'` followed by the single terminator, or a non-empty final
line with no terminator at all. -/
def LineShape (l : List Char) : Prop :=
  (∃ body, l = body ++ ['\n'] ∧ '\n' ∉ body) ∨ ('\n' ∉ l ∧ l ≠ [])

/-- The two kinds of exception the driver's `try` block distinguishes:
`KeyboardInterrupt`, and every ordinary `Exception` (kafka errors, timeouts,
I/O errors, ...), carried here with a description string. -/
inductive PyExc where
  | err (msg : String)
  | keyboardInterrupt
deriving DecidableEq, Repr

/-- A message as handed to `KafkaProducer.send`: the script passes only
`topic` and `value`, so the key and header arguments keep their `None` /
empty defaults. -/
structure KafkaMessage where
  topic : String
  key : Option (List Nat)
  headers : List (String × List Nat)
  value : List Nat
deriving DecidableEq, Repr

/-- Model of `ProducerWrapper.send_line self.topic line`:
`self.producer.send(self.topic, value=line.encode("utf-8"))` — no key, no
headers, payload the UTF-8 bytes of `line`. -/
def send_line (topic line : String) : KafkaMessage :=
  { topic := topic, key := none, headers := [], value := utf8Bytes line }

/-- Outcome scripted for each broker send: `none` is a synchronous
acknowledgment (`future.get(timeout=10)` returns), `some e` is the exception
(`KafkaError`, timeout, `KeyboardInterrupt`, ...) raised by that call.  The
argument is the number of previously acknowledged sends, which — because the
first failure aborts the loop — is also the index of the attempted send. -/
def SendScript := Nat → Option PyExc

/-- The `for line in f:` loop body of `process_csv_file`: skip falsy lines
(`if not line: continue` — for text-file iteration a line is never the empty
string, so this never fires), publish `line.rstrip("\n")`, and count the
acknowledged sends.  Returns the acknowledged messages in order and either
the final count or the exception that aborted the loop. -/
def runLines (topic : String) (sendScript : SendScript) :
    List String → Nat → List KafkaMessage × Except PyExc Nat
  | [], processed => ([], Except.ok processed)
  | line :: rest, processed =>
    if line = "" then runLines topic sendScript rest processed
    else
      match sendScript processed with
      | some e => ([], Except.error e)
      | none =>
        let m := send_line topic (pyRstrip line)
        let (ms, r) := runLines topic sendScript rest (processed + 1)
        (m :: ms, r)

/-- Model of `process_csv_file(file_path, producer)` given the file's decoded contents
and the scripted broker behaviour: stream the lines, then
`producer.flush()`; the result is the acknowledged messages plus either the
line count or the exception that escapes the function. -/
def process_csv_file (topic content : String) (sendScript : SendScript)
    (flushOutcome : Option PyExc) : List KafkaMessage × Except PyExc Nat :=
  match runLines topic sendScript (pyFileLines content) 0 with
  | (ms, Except.error e) => (ms, Except.error e)
  | (ms, Except.ok n) =>
    match flushOutcome with
    | some e => (ms, Except.error e)
    | none => (ms, Except.ok n)

/-- A file at rest in a destination directory: its name and its contents. -/
structure FsFile where
  name : String
  content : String
deriving DecidableEq, Repr

/-- The test `dest.exists()` for a candidate name against the destination directory's
current contents. -/
def dirHasName (dir : List FsFile) (n : String) : Bool :=
  dir.any (fun f => f.name = n)

/-- The collision name `f"{dest.stem}_{ts}{dest.suffix}"` built by
`move_file`. -/
def timestampedName (base ts : String) : String :=
  String.mk (pyStem base.data) ++ "_" ++ ts ++ String.mk (pySuffix base.data)

/-- Model of `move_file(src, dest_dir)` over explicit directory contents, with the
move clock `ts` (`datetime.utcnow().strftime("%Y%m%dT%H%M%S")`) passed in:
the destination keeps the source's base name unless that name exists, in
which case the timestamped name is used; `shutil.move` then *replaces* any
file already at the chosen destination path.  Returns the destination name
and the directory contents after the move. -/
def move_file (dir : List FsFile) (srcName srcContent ts : String) :
    String × List FsFile :=
  let destName :=
    if dirHasName dir srcName then timestampedName srcName ts else srcName
  (destName, dir.filter (fun f => f.name ≠ destName) ++ [⟨destName, srcContent⟩])

/-- Everything externally observable that one iteration of the driver's file
loop does, in order.  Relocations are recorded as events rather than
directory states because `main` only ever calls `move_file` and
`write_error_log` through their effects; `move_file` itself is analysed
separately above. -/
inductive Event where
  /-- A broker-acknowledged publish of one line of `file`. -/
  | published (file : String) (msg : KafkaMessage)
  /-- The call `producer.flush()` was invoked after the last line of `file`. -/
  | flushAttempt (file : String)
  /-- A `write_error_log` call succeeded: the error record for `file` states
  `Processed lines before error: linesBefore` and the exception detail. -/
  | errorRecord (file : String) (linesBefore : Nat) (cause : PyExc)
  /-- The `write_error_log` call itself raised; only logged. -/
  | errorRecordFailed (file : String)
  /-- A `move_file(file, archive_folder)` call succeeded; the driver logs
  `lines=linesCount`. -/
  | movedToArchive (file : String) (linesCount : Nat)
  /-- A `move_file(file, error_folder)` call succeeded. -/
  | movedToError (file : String)
  /-- The `move_file(file, error_folder)` call raised; only logged. -/
  | moveToErrorFailed (file : String)
  /-- The call `producer.close()` was invoked. -/
  | closed
deriving DecidableEq, Repr

/-- The scripted outside world for one candidate file: how `open` behaves,
the file's decoded contents, the broker's per-send and flush behaviour, how
the success-path `move_file` to the archive behaves, and whether
`write_error_log` / the error-path `move_file` succeed. -/
structure FileScript where
  openResult : Option PyExc
  content : String
  sendScript : SendScript
  flushOutcome : Option PyExc
  archiveMoveOutcome : Option PyExc
  errorLogOk : Bool
  errorMoveOk : Bool

/-- Whether one loop iteration ended normally (`Done`: the driver proceeds
to the next file) or via the `KeyboardInterrupt` handler (`sys.exit(130)`). -/
inductive FileResult where
  | done
  | interrupted
deriving DecidableEq, Repr

/-- The `except Exception` handler of `main`'s loop: `write_error_log(...,
processed_lines=processed_count)` — where `processed_count` is whatever
`main`'s local variable holds when the exception lands — then
`move_file(filepath, error_folder)`, each in its own `try`, the move being
attempted whether or not the record was written. -/
def faultEvents (name : String) (processedCount : Nat) (cause : PyExc)
    (s : FileScript) : List Event :=
  (if s.errorLogOk then [Event.errorRecord name processedCount cause]
   else [Event.errorRecordFailed name]) ++
  (if s.errorMoveOk then [Event.movedToError name]
   else [Event.moveToErrorFailed name])

/-- The tail of a loop iteration whose streaming finished with `n` lines
acknowledged: `producer.flush()` then `move_file(filepath, archive_folder)`.
A flush failure lands in the handlers with `processed_count` still `0` (the
assignment `processed_count = process_csv_file(...)` never ran); an
archive-move failure lands there with `processed_count = n`. -/
def successTail (name : String) (s : FileScript) (n : Nat) :
    List Event × FileResult :=
  match s.flushOutcome with
  | some PyExc.keyboardInterrupt =>
    ([Event.flushAttempt name, Event.closed], FileResult.interrupted)
  | some (PyExc.err m) =>
    (Event.flushAttempt name :: faultEvents name 0 (PyExc.err m) s,
      FileResult.done)
  | none =>
    match s.archiveMoveOutcome with
    | some PyExc.keyboardInterrupt =>
      ([Event.flushAttempt name, Event.closed], FileResult.interrupted)
    | some (PyExc.err m) =>
      (Event.flushAttempt name :: faultEvents name n (PyExc.err m) s,
        FileResult.done)
    | none =>
      ([Event.flushAttempt name, Event.movedToArchive name n], FileResult.done)

/-- What happens after `open` succeeded, as a function of the streaming
result: publishes become events; a `KeyboardInterrupt` goes to
`producer.close(); sys.exit(130)`; an ordinary exception goes to the fault
handlers with `processed_count = 0`; a clean stream proceeds to flush and
archive. -/
def afterOpen (name : String) (s : FileScript) :
    List KafkaMessage × Except PyExc Nat → List Event × FileResult
  | (ms, Except.error PyExc.keyboardInterrupt) =>
    (ms.map (Event.published name) ++ [Event.closed], FileResult.interrupted)
  | (ms, Except.error (PyExc.err m)) =>
    (ms.map (Event.published name) ++ faultEvents name 0 (PyExc.err m) s,
      FileResult.done)
  | (ms, Except.ok n) =>
    (ms.map (Event.published name) ++ (successTail name s n).1,
      (successTail name s n).2)

/-- One iteration of `main`'s `for filepath in csv_files:` loop on the file
`name` under the scripted world `s`. -/
def driveFile (topic name : String) (s : FileScript) :
    List Event × FileResult :=
  match s.openResult with
  | some (PyExc.err m) => (faultEvents name 0 (PyExc.err m) s, FileResult.done)
  | some PyExc.keyboardInterrupt => ([Event.closed], FileResult.interrupted)
  | none =>
    afterOpen name s (runLines topic s.sendScript (pyFileLines s.content) 0)

/-- The whole loop: iterate `driveFile` over the eligible names, stopping
(with the `sys.exit(130)` flag) as soon as an iteration is interrupted. -/
def runFiles (topic : String) (scripts : String → FileScript) :
    List String → List Event × Bool
  | [] => ([], false)
  | n :: rest =>
    match driveFile topic n (scripts n) with
    | (evs, FileResult.interrupted) => (evs, true)
    | (evs, FileResult.done) =>
      let (evs2, b) := runFiles topic scripts rest
      (evs ++ evs2, b)

/-- One entry of `Path(input_folder).iterdir()`: its final name component and
whether `p.is_file()` holds. -/
structure DirEntry where
  name : String
  isFile : Bool
deriving DecidableEq, Repr

/-- The comparison `sorted(Path(input_folder).iterdir())` uses between two
entries of the same directory: path comparison, which for a shared parent is
string comparison of the final components. -/
def entryLe (a b : DirEntry) : Bool :=
  pyStrLe a.name.data b.name.data

/-- Stable insertion for `sortEntries`. -/
def insertByName (x : DirEntry) : List DirEntry → List DirEntry
  | [] => [x]
  | y :: ys => if entryLe x y then x :: y :: ys else y :: insertByName x ys

/-- Model of `sorted(Path(input_folder).iterdir())`.  Python's sort is stable with
respect to `entryLe`; a stable sort's output is unique, so this insertion
sort computes exactly the list Python produces. -/
def sortEntries : List DirEntry → List DirEntry
  | [] => []
  | x :: xs => insertByName x (sortEntries xs)

/-- The filter `p.is_file() and p.suffix.lower() == ".csv"`. -/
def isEligible (e : DirEntry) : Bool :=
  e.isFile && pyLower (pySuffix e.name.data) = ".csv".data

/-- The list `csv_files`: the names the driver's loop will process, in order. -/
def eligibleNames (entries : List DirEntry) : List String :=
  ((sortEntries entries).filter isEligible).map DirEntry.name

/-- The three paths `load_config` returns (already `.strip()`ped and
`expanduser`ed). -/
structure Config where
  input_folder : String
  archive_folder : String
  error_folder : String
deriving DecidableEq, Repr

/-- The outside world as `main` observes it: the config-load result, whether
`os.path.isdir(input_folder)` holds, whether the `ensure_dir` calls succeed,
the `KAFKA_*` environment variables (`none` = unset), whether the
`ProducerWrapper` constructor succeeds, the `iterdir` result, and the
scripted behaviour of each file the loop may touch. -/
structure Env where
  configLoad : Except PyExc Config
  inputIsDir : Bool
  ensureDirsOk : Bool
  kafkaBroker : Option String
  kafkaTopic : Option String
  producerInitOk : Bool
  listing : Except PyExc (List DirEntry)
  scripts : String → FileScript

/-- Python truthiness test `not v` for `os.environ.get(...)`: true when the
variable is unset or empty. -/
def envFalsy : Option String → Bool
  | none => true
  | some s => s = ""

/-- The value of `KAFKA_TOPIC` handed to the producer once it is known to be
set and non-empty. -/
def envTopic (env : Env) : String :=
  match env.kafkaTopic with
  | some t => t
  | none => ""

/-- Model of `main()`: the startup ladder with its `sys.exit` codes, then the file
loop, then the final `producer.close()`.  An `ensure_dir` failure is an
uncaught exception, which terminates a Python process with status 1.
Returns the event trace and the process exit status. -/
def main (env : Env) : List Event × Nat :=
  match env.configLoad with
  | Except.error _ => ([], 2)
  | Except.ok cfg =>
    if cfg.input_folder = "" ∨ env.inputIsDir = false then ([], 3)
    else if env.ensureDirsOk = false then ([], 1)
    else if envFalsy env.kafkaBroker ∨ envFalsy env.kafkaTopic then ([], 4)
    else if env.producerInitOk = false then ([], 5)
    else
      match env.listing with
      | Except.error _ => ([Event.closed], 6)
      | Except.ok entries =>
        match runFiles (envTopic env) env.scripts (eligibleNames entries) with
        | (evs, true) => (evs, 130)
        | (evs, false) => (evs ++ [Event.closed], 0)

/-- The file a trace event concerns, if any. -/
def Event.fileOf : Event → Option String
  | Event.published f _ => some f
  | Event.flushAttempt f => some f
  | Event.errorRecord f _ _ => some f
  | Event.errorRecordFailed f => some f
  | Event.movedToArchive f _ => some f
  | Event.movedToError f => some f
  | Event.moveToErrorFailed f => some f
  | Event.closed => none

/-- The file a trace event relocates (or attempts to relocate), if any. -/
def Event.relocationOf : Event → Option String
  | Event.movedToArchive f _ => some f
  | Event.movedToError f => some f
  | Event.moveToErrorFailed f => some f
  | _ => none

/-- Number of broker-acknowledged publishes in a trace. -/
def publishedCount (evs : List Event) : Nat :=
  (evs.filter fun e =>
    match e with
    | Event.published _ _ => true
    | _ => false).length

/-- The exception, if any, with which the streaming part of one loop
iteration (open, per-line publish, flush) ends — the faults the `except`
handlers of `main` receive while `processed_count` still holds `0`. -/
def streamFaultExc (topic : String) (s : FileScript) : Option PyExc :=
  match s.openResult with
  | some e => some e
  | none =>
    match (runLines topic s.sendScript (pyFileLines s.content) 0).2 with
    | Except.error e => some e
    | Except.ok _ => s.flushOutcome

/-- The specification's count of non-empty lines of a file: lines whose
content, after stripping the trailing terminator, is non-empty.  Written from
the spec's words (not from the source) in order to compare the two. -/
def specNonEmptyLineCount (content : String) : Nat :=
  ((pyFileLines content).filter fun l => pyRstrip l ≠ "").length

/-- A world where the broker acknowledges the first send of a file and then
rejects the second with a timeout; error reporting and relocation succeed. -/
def faultAfterOneAckScript : FileScript :=
  { openResult := none
    content := "l1\nl2\nl3\n"
    sendScript := fun k => if k < 1 then none else some (PyExc.err "KafkaTimeoutError")
    flushOutcome := none
    archiveMoveOutcome := none
    errorLogOk := true
    errorMoveOk := true }

/-- A full startup environment whose input folder holds the single file
`b.csv`, streamed under `faultAfterOneAckScript`. -/
def envFaultAfterOneAck : Env :=
  { configLoad := Except.ok ⟨"/data/input", "/data/archive", "/data/error"⟩
    inputIsDir := true
    ensureDirsOk := true
    kafkaBroker := some "kafka:9092"
    kafkaTopic := some "lines"
    producerInitOk := true
    listing := Except.ok [⟨"b.csv", true⟩]
    scripts := fun _ => faultAfterOneAckScript }

/-- A file whose second line is empty: contents `"a\n\n"`. -/
def blankLineScript : FileScript :=
  { openResult := none
    content := "a\n\n"
    sendScript := fun _ => none
    flushOutcome := none
    archiveMoveOutcome := none
    errorLogOk := true
    errorMoveOk := true }

/-- A destination directory that already holds `a.csv`. -/
def dirWithBase : List FsFile := [⟨"a.csv", "resident"⟩]

/-- A startup environment whose config supplies an empty `archive_folder`
and an empty `error_folder` while everything else is healthy and the input
folder is empty. -/
def envEmptyArchivePath : Env :=
  { configLoad := Except.ok ⟨"/data/input", "", ""⟩
    inputIsDir := true
    ensureDirsOk := true
    kafkaBroker := some "kafka:9092"
    kafkaTopic := some "lines"
    producerInitOk := true
    listing := Except.ok []
    scripts := fun _ =>
      ⟨none, "", fun _ => none, none, none, true, true⟩ }

/-- A zero-line (empty) eligible file with a healthy world. -/
def emptyCsvScript : FileScript :=
  { openResult := none
    content := ""
    sendScript := fun _ => none
    flushOutcome := none
    archiveMoveOutcome := none
    errorLogOk := true
    errorMoveOk := true }

/-- The spec's success scenario: a two-line file, all sends acknowledged. -/
def twoLineScript : FileScript :=
  { openResult := none
    content := "1,2,3\n4,5,6\n"
    sendScript := fun _ => none
    flushOutcome := none
    archiveMoveOutcome := none
    errorLogOk := true
    errorMoveOk := true }

/-- A startup environment whose config file cannot be read. -/
def envConfigLoadFails : Env :=
  { configLoad := Except.error (PyExc.err "FileNotFoundError")
    inputIsDir := true
    ensureDirsOk := true
    kafkaBroker := none
    kafkaTopic := none
    producerInitOk := true
    listing := Except.ok []
    scripts := fun _ => emptyCsvScript }

/-- A startup environment whose input folder holds one non-CSV entry, one
subdirectory whose name ends in `.csv`, and one eligible file. -/
def envMixedListing : Env :=
  { configLoad := Except.ok ⟨"/data/input", "/data/archive", "/data/error"⟩
    inputIsDir := true
    ensureDirsOk := true
    kafkaBroker := some "kafka:9092"
    kafkaTopic := some "lines"
    producerInitOk := true
    listing := Except.ok [⟨"notes.txt", true⟩, ⟨"sub.csv", false⟩, ⟨"a.csv", true⟩]
    scripts := fun _ => twoLineScript }

/-- A file whose first publish blocks until the operator interrupts the
process. -/
def interruptScript : FileScript :=
  { openResult := none
    content := "1,2,3\n4,5,6\n"
    sendScript := fun k =>
      if k < 1 then none else some PyExc.keyboardInterrupt
    flushOutcome := none
    archiveMoveOutcome := none
    errorLogOk := true
    errorMoveOk := true }

/-- A startup environment where the second file's streaming is interrupted:
`a.csv` completes, `b.csv` is interrupted mid-stream, `c.csv` is never
reached. -/
def envInterrupted : Env :=
  { configLoad := Except.ok ⟨"/data/input", "/data/archive", "/data/error"⟩
    inputIsDir := true
    ensureDirsOk := true
    kafkaBroker := some "kafka:9092"
    kafkaTopic := some "lines"
    producerInitOk := true
    listing := Except.ok [⟨"a.csv", true⟩, ⟨"b.csv", true⟩, ⟨"c.csv", true⟩]
    scripts := fun n => if n = "b.csv" then interruptScript else twoLineScript }

/-- A startup environment with two eligible files, both healthy, listed in
reverse name order. -/
def envTwoFiles : Env :=
  { configLoad := Except.ok ⟨"/data/input", "/data/archive", "/data/error"⟩
    inputIsDir := true
    ensureDirsOk := true
    kafkaBroker := some "kafka:9092"
    kafkaTopic := some "lines"
    producerInitOk := true
    listing := Except.ok [⟨"b.csv", true⟩, ⟨"a.csv", true⟩]
    scripts := fun _ => twoLineScript }

/-- A file whose broker rejects the second line while the error log cannot
be written (for example, an unwritable `error_folder`). -/
def faultNoLogScript : FileScript :=
  { openResult := none
    content := "l1\nl2\nl3\n"
    sendScript := fun k => if k < 1 then none else some (PyExc.err "KafkaTimeoutError")
    flushOutcome := none
    archiveMoveOutcome := none
    errorLogOk := false
    errorMoveOk := true }

/-! ## Theorems -/

theorem pyStrLt_asymm : ∀ a b : List Char,
    pyStrLt a b = true → pyStrLt b a = false := by
  intro a
  induction a with
  | nil => intro b _; cases b <;> simp [pyStrLt]
  | cons x xs ih =>
    intro b h
    cases b with
    | nil => simp [pyStrLt] at h
    | cons y ys =>
      simp only [pyStrLt] at h ⊢
      by_cases h1 : x.toNat < y.toNat
      · simp [h1, Nat.lt_asymm h1]
      · by_cases h2 : y.toNat < x.toNat
        · simp [h1, h2] at h
        · simp [h1, h2] at h ⊢
          exact ih ys h

theorem pyStrLt_trans : ∀ a b c : List Char,
    pyStrLt a b = true → pyStrLt b c = true → pyStrLt a c = true := by
  intro a
  induction a with
  | nil =>
    intro b c hab hbc
    cases c with
    | nil => cases b <;> simp [pyStrLt] at hab hbc
    | cons z zs => simp [pyStrLt]
  | cons x xs ih =>
    intro b c hab hbc
    cases b with
    | nil => simp [pyStrLt] at hab
    | cons y ys =>
      cases c with
      | nil => simp [pyStrLt] at hbc
      | cons z zs =>
        simp only [pyStrLt] at hab hbc ⊢
        by_cases h1 : x.toNat < y.toNat
        · by_cases h2 : y.toNat < z.toNat
          · simp [show x.toNat < z.toNat from Nat.lt_trans h1 h2]
          · by_cases h3 : z.toNat < y.toNat
            · simp [h2, h3] at hbc
            · have : x.toNat < z.toNat := by omega
              simp [this]
        · by_cases h2 : y.toNat < x.toNat
          · simp [h1, h2] at hab
          · simp only [h1, h2, if_false, ite_false] at hab
            by_cases h3 : y.toNat < z.toNat
            · have : x.toNat < z.toNat := by omega
              simp [this]
            · by_cases h4 : z.toNat < y.toNat
              · simp [h3, h4] at hbc
              · simp only [h3, h4, if_false, ite_false] at hbc
                have hxz : ¬ x.toNat < z.toNat := by omega
                have hzx : ¬ z.toNat < x.toNat := by omega
                simp only [hxz, hzx, if_false, ite_false]
                exact ih ys zs hab hbc

theorem pyStrLt_of_eq_false (a b : List Char) (hab : pyStrLt a b = false)
    (hba : pyStrLt b a = false) : a = b := by
  induction a generalizing b with
  | nil => cases b with
    | nil => rfl
    | cons y ys => simp [pyStrLt] at hab
  | cons x xs ih =>
    cases b with
    | nil => simp [pyStrLt] at hba
    | cons y ys =>
      simp only [pyStrLt] at hab hba
      by_cases h1 : x.toNat < y.toNat
      · simp [h1] at hab
      · by_cases h2 : y.toNat < x.toNat
        · simp [h2] at hba
        · have hxy : x.toNat = y.toNat := by omega
          have : x = y := by
            apply Char.ext
            apply UInt32.toNat.inj
            exact hxy
          subst this
          simp only [h1, if_false, ite_false] at hab hba
          rw [ih ys hab hba]

theorem pyStrLe_trans {a b c : List Char}
    (hab : pyStrLe a b = true) (hbc : pyStrLe b c = true) :
    pyStrLe a c = true := by
  simp only [pyStrLe, Bool.not_eq_true'] at hab hbc ⊢
  by_cases hca : pyStrLt c a = true
  · exfalso
    by_cases hbc2 : pyStrLt b c = true
    · have hba := pyStrLt_trans b c a hbc2 hca
      rw [hba] at hab
      cases hab
    · have : b = c := pyStrLt_of_eq_false b c (by simpa using hbc2) hbc
      subst this
      rw [hca] at hab
      cases hab
  · simpa using hca

theorem pyStrLe_total (a b : List Char) :
    pyStrLe a b = true ∨ pyStrLe b a = true := by
  by_cases h : pyStrLt b a = true
  · right
    simp [pyStrLe, pyStrLt_asymm b a h]
  · left
    simp only [pyStrLe, Bool.not_eq_true', Bool.not_eq_true] at *
    simp [h]

theorem dropWhileNl_eq_self {l : List Char} (h : '\n' ∉ l) :
    List.dropWhile (fun c => c = '\n') l = l := by
  cases l with
  | nil => rfl
  | cons c cs =>
    have : ¬ (c = '\n') := fun hc => h (hc ▸ List.mem_cons_self c cs)
    simp [List.dropWhile_cons, this]

theorem pyRstripNL_body_nl {body : List Char} (h : '\n' ∉ body) :
    pyRstripNL (body ++ ['\n']) = body := by
  unfold pyRstripNL
  rw [List.reverse_append]
  simp only [List.reverse_cons, List.reverse_nil, List.nil_append, List.singleton_append,
    List.dropWhile_cons]
  simp only [decide_True, if_true]
  rw [dropWhileNl_eq_self (by simpa using h)]
  exact List.reverse_reverse body

theorem pyRstripNL_no_nl {l : List Char} (h : '\n' ∉ l) :
    pyRstripNL l = l := by
  unfold pyRstripNL
  rw [dropWhileNl_eq_self (by simpa using h)]
  exact List.reverse_reverse l

theorem splitLinesAux_shape :
    ∀ (cs acc : List Char), '\n' ∉ acc →
      ∀ l ∈ splitLinesAux acc cs, LineShape l := by
  intro cs
  induction cs with
  | nil =>
    intro acc hacc l hl
    simp only [splitLinesAux] at hl
    by_cases he : acc.isEmpty
    · simp [he] at hl
    · rw [if_neg he] at hl
      simp only [List.mem_singleton] at hl
      subst hl
      right
      refine ⟨by simpa using hacc, ?_⟩
      simp only [ne_eq, List.reverse_eq_nil_iff]
      intro h
      exact he (by simp [h])
  | cons c rest ih =>
    intro acc hacc l hl
    simp only [splitLinesAux] at hl
    by_cases hc : c = '\n'
    · simp only [hc, if_true, List.mem_cons, if_pos rfl] at hl
      rcases hl with hl | hl
      · left
        exact ⟨acc.reverse, hl, by simpa using hacc⟩
      · exact ih [] (by simp) l hl
    · simp only [hc, if_false, ite_false] at hl
      exact ih (c :: acc) (by simp [hacc, Ne.symm hc, hc]) l hl

theorem pyFileLines_shape (s : String) :
    ∀ l ∈ pyFileLines s, LineShape l.data := by
  intro l hl
  simp only [pyFileLines, List.mem_map] at hl
  obtain ⟨cs, hcs, rfl⟩ := hl
  exact splitLinesAux_shape s.data [] (by simp) cs hcs

theorem LineShape.ne_nil {l : List Char} (h : LineShape l) : l ≠ [] := by
  rcases h with ⟨body, rfl, -⟩ | ⟨-, h⟩
  · simp
  · exact h

theorem LineShape.rstrip {l : List Char} (h : LineShape l) :
    l = pyRstripNL l ∨ l = pyRstripNL l ++ ['\n'] := by
  rcases h with ⟨body, rfl, hb⟩ | ⟨hnl, -⟩
  · right
    rw [pyRstripNL_body_nl hb]
  · left
    rw [pyRstripNL_no_nl hnl]

theorem LineShape.rstrip_no_nl {l : List Char} (h : LineShape l) :
    '\n' ∉ pyRstripNL l := by
  rcases h with ⟨body, rfl, hb⟩ | ⟨hnl, -⟩
  · rw [pyRstripNL_body_nl hb]
    exact hb
  · rw [pyRstripNL_no_nl hnl]
    exact hnl

theorem string_ne_empty_of_data {l : String} (h : l.data ≠ []) : l ≠ "" :=
  fun he => h (by rw [he])

theorem pyFileLines_ne_empty {s : String} : ∀ l ∈ pyFileLines s, l ≠ "" :=
  fun l hl => string_ne_empty_of_data (pyFileLines_shape s l hl).ne_nil

theorem runLines_all_ack (topic : String) (so : SendScript) :
    ∀ (lines : List String) (k : Nat), (∀ l ∈ lines, l ≠ "") →
      (∀ j, so j = none) →
      runLines topic so lines k =
        (lines.map fun l => send_line topic (pyRstrip l), Except.ok (k + lines.length)) := by
  intro lines
  induction lines with
  | nil => intro k _ _; simp [runLines]
  | cons line rest ih =>
    intro k hne hso
    have h1 : ¬(line = "") := hne line (List.mem_cons_self line rest)
    rw [runLines, if_neg h1, hso k,
      ih (k + 1) (fun l hl => hne l (List.mem_cons_of_mem line hl)) hso]
    have harith : k + 1 + rest.length = k + (rest.length + 1) := by omega
    simp only [List.map_cons, List.length_cons, harith]

theorem runLines_msgs_from_lines (topic : String) (so : SendScript) :
    ∀ (lines : List String) (k : Nat),
      ∀ m ∈ (runLines topic so lines k).1,
        ∃ line ∈ lines, m = send_line topic (pyRstrip line) := by
  intro lines
  induction lines with
  | nil => intro k m hm; simp [runLines] at hm
  | cons line rest ih =>
    intro k m hm
    rw [runLines] at hm
    by_cases h1 : line = ""
    · rw [if_pos h1] at hm
      obtain ⟨l, hl, he⟩ := ih k m hm
      exact ⟨l, List.mem_cons_of_mem line hl, he⟩
    · rw [if_neg h1] at hm
      cases hso : so k with
      | some e => rw [hso] at hm; simp at hm
      | none =>
        rw [hso] at hm
        simp only at hm
        rcases List.mem_cons.mp hm with rfl | hm'
        · exact ⟨line, List.mem_cons_self line rest, rfl⟩
        · obtain ⟨l, hl, he⟩ := ih (k + 1) m hm'
          exact ⟨l, List.mem_cons_of_mem line hl, he⟩

theorem faultEvents_fileOf {name : String} {n : Nat} {c : PyExc} {s : FileScript} :
    ∀ e ∈ faultEvents name n c s, Event.fileOf e = some name := by
  intro e he
  cases hl : s.errorLogOk <;> cases hm : s.errorMoveOk <;>
    simp [faultEvents, hl, hm] at he <;>
    rcases he with rfl | rfl <;> rfl

theorem successTail_fileOf {name : String} {s : FileScript} {n : Nat} :
    ∀ e ∈ (successTail name s n).1,
      Event.fileOf e = some name ∨ e = Event.closed := by
  intro e he
  unfold successTail at he
  cases hf : s.flushOutcome with
  | some exc =>
    cases exc with
    | err m =>
      rw [hf] at he
      simp only [List.mem_cons] at he
      rcases he with rfl | he
      · exact Or.inl rfl
      · exact Or.inl (faultEvents_fileOf e he)
    | keyboardInterrupt =>
      rw [hf] at he
      simp at he
      rcases he with rfl | rfl
      · exact Or.inl rfl
      · exact Or.inr rfl
  | none =>
    rw [hf] at he
    cases ha : s.archiveMoveOutcome with
    | some exc =>
      cases exc with
      | err m =>
        rw [ha] at he
        simp only [List.mem_cons] at he
        rcases he with rfl | he
        · exact Or.inl rfl
        · exact Or.inl (faultEvents_fileOf e he)
      | keyboardInterrupt =>
        rw [ha] at he
        simp at he
        rcases he with rfl | rfl
        · exact Or.inl rfl
        · exact Or.inr rfl
    | none =>
      rw [ha] at he
      simp at he
      rcases he with rfl | rfl
      · exact Or.inl rfl
      · exact Or.inl rfl

theorem driveFile_fileOf {topic name : String} {s : FileScript} :
    ∀ e ∈ (driveFile topic name s).1,
      Event.fileOf e = some name ∨ e = Event.closed := by
  intro e he
  unfold driveFile at he
  cases ho : s.openResult with
  | some exc =>
    cases exc with
    | err m =>
      rw [ho] at he
      exact Or.inl (faultEvents_fileOf e he)
    | keyboardInterrupt =>
      rw [ho] at he
      simp only [List.mem_singleton] at he
      exact Or.inr he
  | none =>
    rw [ho] at he
    rcases hr : runLines topic s.sendScript (pyFileLines s.content) 0 with ⟨ms, r⟩
    rw [hr] at he
    cases r with
    | error exc =>
      cases exc with
      | err m =>
        simp only [afterOpen, List.mem_append] at he
        rcases he with he | he
        · obtain ⟨msg, -, rfl⟩ := List.mem_map.mp he
          exact Or.inl rfl
        · exact Or.inl (faultEvents_fileOf e he)
      | keyboardInterrupt =>
        simp only [afterOpen, List.mem_append, List.mem_singleton] at he
        rcases he with he | rfl
        · obtain ⟨msg, -, rfl⟩ := List.mem_map.mp he
          exact Or.inl rfl
        · exact Or.inr rfl
    | ok n =>
      simp only [afterOpen, List.mem_append] at he
      rcases he with he | he
      · obtain ⟨msg, -, rfl⟩ := List.mem_map.mp he
        exact Or.inl rfl
      · exact successTail_fileOf e he

theorem runFiles_fileOf {topic : String} {scripts : String → FileScript} :
    ∀ (L : List String), ∀ e ∈ (runFiles topic scripts L).1,
      ∀ f, Event.fileOf e = some f → f ∈ L := by
  intro L
  induction L with
  | nil => intro e he; simp [runFiles] at he
  | cons n rest ih =>
    intro e he f hf
    rw [runFiles] at he
    rcases hd : driveFile topic n (scripts n) with ⟨evs, r⟩
    rw [hd] at he
    cases r with
    | interrupted =>
      simp only at he
      rcases driveFile_fileOf e (hd ▸ he : e ∈ (driveFile topic n (scripts n)).1) with h | rfl
      · rw [h] at hf
        exact (Option.some.inj hf) ▸ List.mem_cons_self n rest
      · cases hf
    | done =>
      simp only [List.mem_append] at he
      rcases he with he | he
      · rcases driveFile_fileOf e (hd ▸ he : e ∈ (driveFile topic n (scripts n)).1) with h | rfl
        · rw [h] at hf
          exact (Option.some.inj hf) ▸ List.mem_cons_self n rest
        · cases hf
      · exact List.mem_cons_of_mem n (ih e he f hf)

theorem runFiles_append {topic : String} {scripts : String → FileScript} :
    ∀ (pre rest : List String),
      (∀ p ∈ pre, (driveFile topic p (scripts p)).2 = FileResult.done) →
      runFiles topic scripts (pre ++ rest) =
        ((pre.map fun p => (driveFile topic p (scripts p)).1).flatten
            ++ (runFiles topic scripts rest).1,
          (runFiles topic scripts rest).2) := by
  intro pre
  induction pre with
  | nil => intro rest _; simp
  | cons p pre' ih =>
    intro rest hdone
    have hp : (driveFile topic p (scripts p)).2 = FileResult.done :=
      hdone p (List.mem_cons_self p pre')
    rcases hd : driveFile topic p (scripts p) with ⟨evs, r⟩
    rw [hd] at hp
    subst hp
    rw [List.cons_append, runFiles, hd,
      ih rest (fun q hq => hdone q (List.mem_cons_of_mem p hq))]
    simp [hd]

theorem mem_insertByName {x a : DirEntry} :
    ∀ {l : List DirEntry}, a ∈ insertByName x l ↔ a = x ∨ a ∈ l := by
  intro l
  induction l with
  | nil => simp [insertByName]
  | cons y ys ih =>
    by_cases h : entryLe x y
    · simp [insertByName, h]
    · simp only [insertByName]
      rw [if_neg h]
      simp only [List.mem_cons, ih]
      tauto

theorem insertByName_perm (x : DirEntry) :
    ∀ (l : List DirEntry), (insertByName x l).Perm (x :: l) := by
  intro l
  induction l with
  | nil => exact List.Perm.refl _
  | cons y ys ih =>
    by_cases h : entryLe x y
    · simp [insertByName, h]
    · simp only [insertByName, h, if_false, ite_false]
      exact (ih.cons y).trans (List.Perm.swap x y ys)

theorem sortEntries_perm : ∀ (l : List DirEntry), (sortEntries l).Perm l := by
  intro l
  induction l with
  | nil => exact List.Perm.refl _
  | cons x xs ih =>
    exact (insertByName_perm x (sortEntries xs)).trans (ih.cons x)

theorem pairwise_insertByName {x : DirEntry} :
    ∀ {l : List DirEntry},
      List.Pairwise (fun a b => entryLe a b = true) l →
      List.Pairwise (fun a b => entryLe a b = true) (insertByName x l) := by
  intro l
  induction l with
  | nil => intro _; simp [insertByName]
  | cons y ys ih =>
    intro h
    rcases List.pairwise_cons.mp h with ⟨hy, hys⟩
    by_cases hxy : entryLe x y
    · simp only [insertByName, hxy, if_true]
      refine List.pairwise_cons.mpr ⟨?_, h⟩
      intro b hb
      rcases List.mem_cons.mp hb with rfl | hb
      · exact hxy
      · exact pyStrLe_trans hxy (hy b hb)
    · simp only [insertByName]
      rw [if_neg hxy]
      refine List.pairwise_cons.mpr ⟨?_, ih hys⟩
      intro b hb
      rcases mem_insertByName.mp hb with hbx | hb
      · subst hbx
        rcases pyStrLe_total b.name.data y.name.data with h | h
        · exact absurd h hxy
        · exact h
      · exact hy b hb

theorem sortEntries_pairwise :
    ∀ (l : List DirEntry),
      List.Pairwise (fun a b => entryLe a b = true) (sortEntries l) := by
  intro l
  induction l with
  | nil => simp [sortEntries]
  | cons x xs ih => exact pairwise_insertByName ih

theorem eligibleNames_nodup {entries : List DirEntry}
    (h : (entries.map DirEntry.name).Nodup) :
    (eligibleNames entries).Nodup := by
  have hperm : ((sortEntries entries).map DirEntry.name).Perm
      (entries.map DirEntry.name) := (sortEntries_perm entries).map _
  have hsortnd : ((sortEntries entries).map DirEntry.name).Nodup :=
    hperm.nodup_iff.mpr h
  exact List.Nodup.sublist
    ((List.filter_sublist (sortEntries entries)).map DirEntry.name) hsortnd

theorem eligibleNames_pairwise_lt {entries : List DirEntry}
    (h : (entries.map DirEntry.name).Nodup) :
    List.Pairwise (fun a b : String => pyStrLt a.data b.data = true)
      (eligibleNames entries) := by
  have hle : List.Pairwise (fun a b : String => pyStrLe a.data b.data = true)
      (eligibleNames entries) := by
    unfold eligibleNames
    rw [List.pairwise_map]
    exact ((sortEntries_pairwise entries).filter isEligible).imp (fun hr => hr)
  have hne : List.Pairwise (fun a b : String => a ≠ b) (eligibleNames entries) :=
    eligibleNames_nodup h
  refine (hle.and hne).imp ?_
  rintro a b ⟨hab, hne'⟩
  simp only [pyStrLe, Bool.not_eq_true'] at hab
  by_cases hlt : pyStrLt a.data b.data = true
  · exact hlt
  · exfalso
    exact hne' (String.ext (pyStrLt_of_eq_false _ _ (by simpa using hlt) hab))

theorem mem_split_of_pairwise_lt {L : List String} {a b : String}
    (hp : List.Pairwise (fun x y : String => pyStrLt x.data y.data = true) L)
    (ha : a ∈ L) (hb : b ∈ L) (hlt : pyStrLt a.data b.data = true) :
    ∃ u v, L = u ++ a :: v ∧ b ∈ v ∧ b ∉ u ∧ a ∉ v := by
  obtain ⟨u, v, rfl⟩ := List.append_of_mem ha
  rcases List.pairwise_append.mp hp with ⟨hu, hav, hcross⟩
  rcases List.pairwise_cons.mp hav with ⟨hva, hv⟩
  have hirr : ∀ x : String, pyStrLt x.data x.data = true → False := by
    intro x hx
    have := pyStrLt_asymm _ _ hx
    rw [this] at hx
    cases hx
  have hbv : b ∈ v := by
    rcases List.mem_append.mp hb with hbu | hbav
    · exfalso
      have hba := hcross b hbu a (List.mem_cons_self a v)
      have := pyStrLt_asymm _ _ hlt
      rw [this] at hba
      cases hba
    · rcases List.mem_cons.mp hbav with rfl | hbv
      · exact absurd hlt (fun hx => hirr b hx)
      · exact hbv
  refine ⟨u, v, rfl, hbv, ?_, ?_⟩
  · intro hbu
    have hba := hcross b hbu a (List.mem_cons_self a v)
    have := pyStrLt_asymm _ _ hlt
    rw [this] at hba
    cases hba
  · intro hav'
    exact hirr a (hva a hav')

theorem no_pub_of_fileOf_ne {f : String} {e : Event}
    (h : Event.fileOf e = some f → False) : ∀ m, e ≠ Event.published f m := by
  intro m he
  subst he
  exact h rfl

theorem driveFile_no_pub_of_ne {topic n f : String} {s : FileScript}
    (hne : f ≠ n) : ∀ e ∈ (driveFile topic n s).1,
      ∀ m, e ≠ Event.published f m := by
  intro e he m hef
  subst hef
  rcases driveFile_fileOf _ he with h | h
  · exact hne ((Option.some.inj h).symm ▸ rfl)
  · cases h

theorem runFiles_no_pub {topic : String} {scripts : String → FileScript}
    {f : String} : ∀ (L : List String), f ∉ L →
      ∀ e ∈ (runFiles topic scripts L).1, ∀ m, e ≠ Event.published f m := by
  intro L hf e he m hef
  subst hef
  exact hf (runFiles_fileOf L _ he f rfl)

theorem runFiles_pub_split {topic : String} {scripts : String → FileScript}
    {a b : String} (hne : b ≠ a) :
    ∀ (u : List String) (v : List String), b ∉ u → a ∉ v →
      ∃ U V, (runFiles topic scripts (u ++ a :: v)).1 = U ++ V ∧
        (∀ e ∈ U, ∀ m, e ≠ Event.published b m) ∧
        (∀ e ∈ V, ∀ m, e ≠ Event.published a m) := by
  intro u
  induction u with
  | nil =>
    intro v _ hav
    rw [List.nil_append, runFiles]
    rcases hd : driveFile topic a (scripts a) with ⟨evs, r⟩
    cases r with
    | interrupted =>
      refine ⟨evs, [], by simp, ?_, by simp⟩
      intro e he
      exact driveFile_no_pub_of_ne hne e (by rw [hd]; exact he)
    | done =>
      refine ⟨evs, (runFiles topic scripts v).1, by simp, ?_, ?_⟩
      · intro e he
        exact driveFile_no_pub_of_ne hne e (by rw [hd]; exact he)
      · exact runFiles_no_pub v hav
  | cons x u' ih =>
    intro v hbu hav
    have hbx : b ≠ x := fun h => hbu (h ▸ List.mem_cons_self x u')
    have hbu' : b ∉ u' := fun h => hbu (List.mem_cons_of_mem x h)
    rw [List.cons_append, runFiles]
    rcases hd : driveFile topic x (scripts x) with ⟨evs, r⟩
    cases r with
    | interrupted =>
      refine ⟨evs, [], by simp, ?_, by simp⟩
      intro e he
      exact driveFile_no_pub_of_ne hbx e (by rw [hd]; exact he)
    | done =>
      obtain ⟨U', V', hsplit, hU', hV'⟩ := ih v hbu' hav
      refine ⟨evs ++ U', V', by simp [hsplit], ?_, hV'⟩
      intro e he
      rcases List.mem_append.mp he with he | he
      · exact driveFile_no_pub_of_ne hbx e (by rw [hd]; exact he)
      · exact hU' e he

/-- C10: an eligible `.csv` file with zero lines is treated as a success —
no message is published, `flush` is still invoked, and the file is moved to
`archive_folder` with a recorded line count of 0. -/
theorem emptyFile_archived_with_zero_count (topic name : String)
    (s : FileScript) (hcontent : s.content = "")
    (hopen : s.openResult = none) (hflush : s.flushOutcome = none)
    (hmove : s.archiveMoveOutcome = none) :
    driveFile topic name s =
      ([Event.flushAttempt name, Event.movedToArchive name 0],
        FileResult.done) := by
  unfold driveFile
  rw [hopen, hcontent]
  show afterOpen name s (runLines topic s.sendScript (pyFileLines "") 0) = _
  have hpl : pyFileLines "" = [] := rfl
  rw [hpl]
  show afterOpen name s ([], Except.ok 0) = _
  simp [afterOpen, successTail, hflush, hmove]

theorem emptyFile_archived_with_zero_count_witness :
    emptyCsvScript.content = "" ∧
    driveFile "lines" "empty.csv" emptyCsvScript =
      ([Event.flushAttempt "empty.csv", Event.movedToArchive "empty.csv" 0],
        FileResult.done) :=
  ⟨rfl, emptyFile_archived_with_zero_count "lines" "empty.csv" emptyCsvScript
    rfl rfl rfl rfl⟩

/-- C2 counterexample: a file whose contents are `"a\n\n"` has one non-empty
line, yet a fault-free run publishes two messages — the blank line is
published as an empty payload rather than skipped (`if not line: continue`
only tests for the empty string, which text-file iteration never yields: a
blank line arrives as `"\n"`). -/
theorem blankLine_also_published :
    specNonEmptyLineCount blankLineScript.content = 1 ∧
    publishedCount (driveFile "lines" "a.csv" blankLineScript).1 = 2 ∧
    Event.published "a.csv" ⟨"lines", none, [], []⟩
      ∈ (driveFile "lines" "a.csv" blankLineScript).1 ∧
    (driveFile "lines" "a.csv" blankLineScript).2 = FileResult.done := by
  decide

/-- C2 (amended): for every eligible `.csv` file, a fault-free run publishes
exactly one message per line — counting empty lines, which yield an
empty-payload message — in the exact order the lines appear in the file, and
then moves the file to `archive_folder`. -/
theorem every_line_published_in_order (topic name : String) (s : FileScript)
    (hopen : s.openResult = none) (hsend : ∀ k, s.sendScript k = none)
    (hflush : s.flushOutcome = none) (hmove : s.archiveMoveOutcome = none) :
    driveFile topic name s =
      ((pyFileLines s.content).map
          (fun l => Event.published name (send_line topic (pyRstrip l)))
        ++ [Event.flushAttempt name,
            Event.movedToArchive name (pyFileLines s.content).length],
        FileResult.done) := by
  unfold driveFile
  rw [hopen,
    runLines_all_ack topic s.sendScript (pyFileLines s.content) 0
      pyFileLines_ne_empty hsend]
  simp only [afterOpen, successTail, hflush, hmove, List.map_map,
    Nat.zero_add, Function.comp]
  rfl

theorem every_line_published_in_order_witness :
    twoLineScript.openResult = none ∧
    driveFile "lines" "a.CSV" twoLineScript =
      ((pyFileLines twoLineScript.content).map
          (fun l => Event.published "a.CSV" (send_line "lines" (pyRstrip l)))
        ++ [Event.flushAttempt "a.CSV",
            Event.movedToArchive "a.CSV"
              (pyFileLines twoLineScript.content).length],
        FileResult.done) :=
  ⟨rfl, every_line_published_in_order "lines" "a.CSV" twoLineScript
    rfl (fun _ => rfl) rfl rfl⟩

/-- C3: every published message goes to the configured topic with no key and
no headers, and its payload is the UTF-8 bytes of the source line with its
trailing terminator stripped and everything else (embedded delimiters
included) preserved verbatim: the line is exactly the payload's characters,
or exactly the payload's characters plus one trailing `'\n'`, and the
payload contains no `'\n'`. -/
theorem payload_is_stripped_line_verbatim (topic content : String)
    (so : SendScript) :
    ∀ m ∈ (runLines topic so (pyFileLines content) 0).1,
      ∃ line ∈ pyFileLines content,
        m.topic = topic ∧ m.key = none ∧ m.headers = [] ∧
        m.value = utf8Bytes (pyRstrip line) ∧
        (line.data = (pyRstrip line).data ∨
          line.data = (pyRstrip line).data ++ ['\n']) ∧
        '\n' ∉ (pyRstrip line).data := by
  intro m hm
  obtain ⟨line, hline, rfl⟩ :=
    runLines_msgs_from_lines topic so (pyFileLines content) 0 m hm
  have hshape := pyFileLines_shape content line hline
  exact ⟨line, hline, rfl, rfl, rfl, rfl, hshape.rstrip, hshape.rstrip_no_nl⟩

theorem payload_is_stripped_line_verbatim_witness :
    (⟨"lines", none, [], [120, 44, 121]⟩ : KafkaMessage)
        ∈ (runLines "lines" (fun _ => none) (pyFileLines "x,y\n") 0).1 ∧
    (∃ line ∈ pyFileLines "x,y\n",
      (⟨"lines", none, [], [120, 44, 121]⟩ : KafkaMessage).topic = "lines" ∧
      (⟨"lines", none, [], [120, 44, 121]⟩ : KafkaMessage).key = none ∧
      (⟨"lines", none, [], [120, 44, 121]⟩ : KafkaMessage).headers = [] ∧
      (⟨"lines", none, [], [120, 44, 121]⟩ : KafkaMessage).value
          = utf8Bytes (pyRstrip line) ∧
      (line.data = (pyRstrip line).data ∨
        line.data = (pyRstrip line).data ++ ['\n']) ∧
      '\n' ∉ (pyRstrip line).data) :=
  ⟨by decide,
    payload_is_stripped_line_verbatim "lines" "x,y\n" (fun _ => none)
      ⟨"lines", none, [], [120, 44, 121]⟩ (by decide)⟩

/-- C1 (failing run): with one file `b.csv` of three lines where the broker
acknowledges line 1 and then times out on line 2, the run publishes exactly
one acknowledged message, yet the error record written for the file states
`Processed lines before error: 0` — not the 1 previously acknowledged line
the claim requires (in `main`, `processed_count = process_csv_file(...)`
never assigns when the callee raises, so the handler always reports the
initial `0` for streaming faults). -/
theorem errorRecord_reports_zero_not_acknowledged_count :
    main envFaultAfterOneAck =
      ([Event.published "b.csv" ⟨"lines", none, [], [108, 49]⟩,
        Event.errorRecord "b.csv" 0 (PyExc.err "KafkaTimeoutError"),
        Event.movedToError "b.csv",
        Event.closed], 0) ∧
    publishedCount (main envFaultAfterOneAck).1 = 1 ∧
    Event.errorRecord "b.csv" 1 (PyExc.err "KafkaTimeoutError")
      ∉ (main envFaultAfterOneAck).1 := by
  decide

/-- C5 counterexample: with `a.csv` already resident in the destination,
moving two different files both named `a.csv` into it during the same clock
second (same `YYYYMMDDTHHMMSS` string) makes both moves choose the same
timestamped destination name, and the second `shutil.move` replaces the
first arrival — its contents are no longer recoverable from the destination
directory. -/
theorem second_arrival_overwrites_on_timestamp_collision :
    (move_file dirWithBase "a.csv" "first-arrival" "20250101T000000").1
        = "a_20250101T000000.csv" ∧
    FsFile.mk "a_20250101T000000.csv" "first-arrival"
        ∈ (move_file dirWithBase "a.csv" "first-arrival" "20250101T000000").2 ∧
    (move_file
        (move_file dirWithBase "a.csv" "first-arrival" "20250101T000000").2
        "a.csv" "second-arrival" "20250101T000000").2
      = [⟨"a.csv", "resident"⟩,
          ⟨"a_20250101T000000.csv", "second-arrival"⟩] ∧
    FsFile.mk "a_20250101T000000.csv" "first-arrival"
        ∉ (move_file
            (move_file dirWithBase "a.csv" "first-arrival" "20250101T000000").2
            "a.csv" "second-arrival" "20250101T000000").2 := by
  decide

/-- C5 (amended): the destination name equals the source's base name unless
that name already exists in the destination, in which case the UTC
timestamp (YYYYMMDDTHHMMSS) is appended (with an underscore) to the stem
before the extension; provided the timestamped candidate is not itself
already present when the base name collides — for example, when the two
moves happen in different seconds — no existing file is overwritten: every
file previously in the destination is still there, and the moved contents
arrive under the chosen name. -/
theorem move_keeps_residents_when_timestamp_fresh (dir : List FsFile)
    (srcName srcContent ts : String)
    (hfresh : ¬(dirHasName dir srcName = true ∧
      dirHasName dir (timestampedName srcName ts) = true)) :
    (move_file dir srcName srcContent ts).1 =
      (if dirHasName dir srcName then timestampedName srcName ts
        else srcName) ∧
    (∀ f ∈ dir, f ∈ (move_file dir srcName srcContent ts).2) ∧
    FsFile.mk (move_file dir srcName srcContent ts).1 srcContent
      ∈ (move_file dir srcName srcContent ts).2 := by
  have hnames : ∀ n, dirHasName dir n = false → ∀ f ∈ dir, f.name ≠ n := by
    intro n hn f hf
    intro hfn
    have : dirHasName dir n = true := by
      unfold dirHasName
      rw [List.any_eq_true]
      exact ⟨f, hf, by simp [hfn]⟩
    rw [this] at hn
    cases hn
  refine ⟨rfl, ?_, ?_⟩
  · intro f hf
    unfold move_file
    by_cases hsn : dirHasName dir srcName
    · have hts : dirHasName dir (timestampedName srcName ts) = false := by
        rcases h : dirHasName dir (timestampedName srcName ts) with _ | _
        · rfl
        · exact absurd ⟨hsn, h⟩ hfresh
      rw [if_pos hsn]
      refine List.mem_append_left _ ?_
      rw [List.mem_filter]
      exact ⟨hf, by simpa using hnames _ hts f hf⟩
    · have hsn' : dirHasName dir srcName = false := by
        rcases h : dirHasName dir srcName with _ | _
        · rfl
        · exact absurd h hsn
      rw [if_neg hsn]
      refine List.mem_append_left _ ?_
      rw [List.mem_filter]
      exact ⟨hf, by simpa using hnames _ hsn' f hf⟩
  · unfold move_file
    by_cases hsn : dirHasName dir srcName
    · rw [if_pos hsn]
      exact List.mem_append_right _ (List.mem_singleton.mpr rfl)
    · rw [if_neg hsn]
      exact List.mem_append_right _ (List.mem_singleton.mpr rfl)

theorem move_keeps_residents_when_timestamp_fresh_witness :
    (¬(dirHasName dirWithBase "a.csv" = true ∧
      dirHasName dirWithBase (timestampedName "a.csv" "20250101T000001") = true)) ∧
    ((move_file dirWithBase "a.csv" "late-arrival" "20250101T000001").1 =
      (if dirHasName dirWithBase "a.csv"
        then timestampedName "a.csv" "20250101T000001" else "a.csv") ∧
    (∀ f ∈ dirWithBase,
      f ∈ (move_file dirWithBase "a.csv" "late-arrival" "20250101T000001").2) ∧
    FsFile.mk (move_file dirWithBase "a.csv" "late-arrival" "20250101T000001").1
        "late-arrival"
      ∈ (move_file dirWithBase "a.csv" "late-arrival" "20250101T000001").2) :=
  ⟨by decide,
    move_keeps_residents_when_timestamp_fresh dirWithBase "a.csv"
      "late-arrival" "20250101T000001" (by decide)⟩

/-- C7 counterexample: a config supplying an empty `archive_folder` and an
empty `error_folder` — required values per the spec — is not fatal: with a
healthy broker and an empty input folder the run completes normally with
exit code 0 (the script validates only `input_folder`; the other two paths
are passed to `ensure_dir` and `move_file` unvalidated). -/
theorem empty_archive_folder_not_fatal :
    envEmptyArchivePath.configLoad =
      Except.ok ⟨"/data/input", "", ""⟩ ∧
    main envEmptyArchivePath = ([Event.closed], 0) :=
  ⟨rfl, by decide⟩

/-- C7 (amended): every startup failure terminates the process before any
file is processed, with a distinct exit code per failure class — 2 for
config load failure, 3 for missing (or empty) input folder, 4 for missing
broker settings, 5 for broker connection failure, 6 for inability to list
the input folder — and 0 on success or when there is no eligible file.
Failure to supply the input folder or the broker settings is fatal before
the pipeline starts, but empty `archive_folder` / `error_folder` values are
not validated and do not by themselves prevent the run. -/
theorem startup_exit_codes (env : Env) :
    (∀ e, env.configLoad = Except.error e → main env = ([], 2)) ∧
    (∀ cfg, env.configLoad = Except.ok cfg →
      (cfg.input_folder = "" ∨ env.inputIsDir = false) →
      main env = ([], 3)) ∧
    (∀ cfg, env.configLoad = Except.ok cfg →
      ¬(cfg.input_folder = "" ∨ env.inputIsDir = false) →
      env.ensureDirsOk = true →
      (envFalsy env.kafkaBroker = true ∨ envFalsy env.kafkaTopic = true) →
      main env = ([], 4)) ∧
    (∀ cfg, env.configLoad = Except.ok cfg →
      ¬(cfg.input_folder = "" ∨ env.inputIsDir = false) →
      env.ensureDirsOk = true →
      ¬(envFalsy env.kafkaBroker = true ∨ envFalsy env.kafkaTopic = true) →
      env.producerInitOk = false →
      main env = ([], 5)) ∧
    (∀ cfg e, env.configLoad = Except.ok cfg →
      ¬(cfg.input_folder = "" ∨ env.inputIsDir = false) →
      env.ensureDirsOk = true →
      ¬(envFalsy env.kafkaBroker = true ∨ envFalsy env.kafkaTopic = true) →
      env.producerInitOk = true →
      env.listing = Except.error e →
      main env = ([Event.closed], 6)) ∧
    (∀ cfg entries, env.configLoad = Except.ok cfg →
      ¬(cfg.input_folder = "" ∨ env.inputIsDir = false) →
      env.ensureDirsOk = true →
      ¬(envFalsy env.kafkaBroker = true ∨ envFalsy env.kafkaTopic = true) →
      env.producerInitOk = true →
      env.listing = Except.ok entries →
      (runFiles (envTopic env) env.scripts (eligibleNames entries)).2 = false →
      (main env).2 = 0) := by
  refine ⟨?_, ?_, ?_, ?_, ?_, ?_⟩
  · intro e h
    simp [main, h]
  · intro cfg h h3
    simp [main, h, if_pos h3]
  · intro cfg h h3 hd h4
    have hd' : ¬(env.ensureDirsOk = false) := by simp [hd]
    simp only [main, h, if_neg h3, if_neg hd', if_pos h4]
  · intro cfg h h3 hd h4 h5
    have hd' : ¬(env.ensureDirsOk = false) := by simp [hd]
    simp only [main, h, if_neg h3, if_neg hd', if_neg h4, if_pos h5]
  · intro cfg e h h3 hd h4 h5 h6
    have hd' : ¬(env.ensureDirsOk = false) := by simp [hd]
    have h5' : ¬(env.producerInitOk = false) := by simp [h5]
    simp only [main, h, if_neg h3, if_neg hd', if_neg h4, if_neg h5', h6]
  · intro cfg entries h h3 hd h4 h5 h6 hflag
    have hd' : ¬(env.ensureDirsOk = false) := by simp [hd]
    have h5' : ¬(env.producerInitOk = false) := by simp [h5]
    simp only [main, h, if_neg h3, if_neg hd', if_neg h4, if_neg h5', h6]
    rcases hr : runFiles (envTopic env) env.scripts (eligibleNames entries)
      with ⟨evs, flag⟩
    rw [hr] at hflag
    simp only at hflag
    subst hflag
    simp

theorem startup_exit_codes_witness :
    envConfigLoadFails.configLoad
        = Except.error (PyExc.err "FileNotFoundError") ∧
    main envConfigLoadFails = ([], 2) :=
  ⟨rfl, (startup_exit_codes envConfigLoadFails).1
    (PyExc.err "FileNotFoundError") rfl⟩

/-- C6: an entry of the input folder that is not a regular file with
extension `.csv` (case-insensitively) never enters the per-file loop — its
name is not among the eligible names — and no event of the whole run
concerns it, so it remains untouched in `input_folder`. -/
theorem non_csv_entry_untouched (env : Env) (entries : List DirEntry)
    (entry : DirEntry) (hlist : env.listing = Except.ok entries)
    (hmem : entry ∈ entries) (hinel : isEligible entry = false)
    (hnodup : (entries.map DirEntry.name).Nodup) :
    entry.name ∉ eligibleNames entries ∧
    ∀ e ∈ (main env).1, Event.fileOf e ≠ some entry.name := by
  have hpart1 : entry.name ∉ eligibleNames entries := by
    intro hmemEN
    unfold eligibleNames at hmemEN
    obtain ⟨e', he'filter, he'name⟩ := List.mem_map.mp hmemEN
    rcases List.mem_filter.mp he'filter with ⟨he'sort, he'elig⟩
    have he'entries : e' ∈ entries :=
      (sortEntries_perm entries).mem_iff.mp he'sort
    have : e' = entry :=
      List.inj_on_of_nodup_map hnodup he'entries hmem he'name
    rw [this, hinel] at he'elig
    cases he'elig
  refine ⟨hpart1, ?_⟩
  intro e he hf
  cases hc : env.configLoad with
  | error e0 =>
    rw [show main env = ([], 2) by simp [main, hc]] at he
    simp at he
  | ok cfg =>
    by_cases h3 : cfg.input_folder = "" ∨ env.inputIsDir = false
    · rw [show main env = ([], 3) by simp [main, hc, if_pos h3]] at he
      simp at he
    · by_cases hd : env.ensureDirsOk = false
      · rw [show main env = ([], 1) by
          simp only [main, hc, if_neg h3, if_pos hd]] at he
        simp at he
      · by_cases h4 : envFalsy env.kafkaBroker = true ∨ envFalsy env.kafkaTopic = true
        · rw [show main env = ([], 4) by
            simp only [main, hc, if_neg h3, if_neg hd, if_pos h4]] at he
          simp at he
        · by_cases h5 : env.producerInitOk = false
          · rw [show main env = ([], 5) by
              simp only [main, hc, if_neg h3, if_neg hd, if_neg h4, if_pos h5]] at he
            simp at he
          · rcases hr : runFiles (envTopic env) env.scripts (eligibleNames entries)
              with ⟨evs, flag⟩
            cases flag with
            | true =>
              rw [show main env = (evs, 130) by
                simp only [main, hc, if_neg h3, if_neg hd, if_neg h4, if_neg h5,
                  hlist, hr]] at he
              exact hpart1 (runFiles_fileOf (eligibleNames entries) e
                (by rw [hr]; exact he) entry.name hf)
            | false =>
              rw [show main env = (evs ++ [Event.closed], 0) by
                simp only [main, hc, if_neg h3, if_neg hd, if_neg h4, if_neg h5,
                  hlist, hr]] at he
              simp only [List.mem_append] at he
              rcases he with he | he
              · exact hpart1 (runFiles_fileOf (eligibleNames entries) e
                  (by rw [hr]; exact he) entry.name hf)
              · simp at he
                subst he
                simp [Event.fileOf] at hf

theorem non_csv_entry_untouched_witness :
    ("notes.txt" : String)
        ∉ eligibleNames [⟨"notes.txt", true⟩, ⟨"sub.csv", false⟩, ⟨"a.csv", true⟩] ∧
    Event.fileOf Event.closed ≠ some "notes.txt" :=
  ⟨(non_csv_entry_untouched envMixedListing
      [⟨"notes.txt", true⟩, ⟨"sub.csv", false⟩, ⟨"a.csv", true⟩]
      ⟨"notes.txt", true⟩ rfl (by decide) (by decide) (by decide)).1,
    (non_csv_entry_untouched envMixedListing
      [⟨"notes.txt", true⟩, ⟨"sub.csv", false⟩, ⟨"a.csv", true⟩]
      ⟨"notes.txt", true⟩ rfl (by decide) (by decide) (by decide)).2
      Event.closed (by decide)⟩

theorem faultEvents_eq (name : String) (n : Nat) (c : PyExc) (s : FileScript) :
    faultEvents name n c s =
      [(if s.errorLogOk then Event.errorRecord name n c
        else Event.errorRecordFailed name),
        (if s.errorMoveOk then Event.movedToError name
        else Event.moveToErrorFailed name)] := by
  unfold faultEvents
  cases s.errorLogOk <;> cases s.errorMoveOk <;> simp

theorem relocationOf_fileOf {e : Event} {f : String}
    (h : Event.relocationOf e = some f) : Event.fileOf e = some f := by
  cases e <;> simp [Event.relocationOf] at h <;> simp [Event.fileOf, h]

/-- C4: whenever the streaming of a file faults with an ordinary exception
(open failure, publish failure or timeout, flush failure), the driver emits
the error-record attempt and then the move-to-error-folder attempt — the
move is attempted even when writing the error record itself failed — the
iteration ends in `Done` rather than aborting, and the loop continues with
exactly the remaining files. -/
theorem fault_reported_then_relocated_run_continues
    (topic name : String) (scripts : String → FileScript)
    (rest : List String) (m : String)
    (hfault : streamFaultExc topic (scripts name) = some (PyExc.err m)) :
    (driveFile topic name (scripts name)).2 = FileResult.done ∧
    (∃ pre, (driveFile topic name (scripts name)).1 =
      pre ++
        [(if (scripts name).errorLogOk then
            Event.errorRecord name 0 (PyExc.err m)
          else Event.errorRecordFailed name),
          (if (scripts name).errorMoveOk then Event.movedToError name
          else Event.moveToErrorFailed name)]) ∧
    runFiles topic scripts (name :: rest) =
      ((driveFile topic name (scripts name)).1
          ++ (runFiles topic scripts rest).1,
        (runFiles topic scripts rest).2) := by
  have hmain : driveFile topic name (scripts name) =
      ((driveFile topic name (scripts name)).1, FileResult.done) ∧
      ∃ pre, (driveFile topic name (scripts name)).1 =
        pre ++
          [(if (scripts name).errorLogOk then
              Event.errorRecord name 0 (PyExc.err m)
            else Event.errorRecordFailed name),
            (if (scripts name).errorMoveOk then Event.movedToError name
            else Event.moveToErrorFailed name)] := by
    unfold streamFaultExc at hfault
    cases ho : (scripts name).openResult with
    | some exc =>
      rw [ho] at hfault
      have : exc = PyExc.err m := Option.some.inj hfault
      subst this
      have hdrive : driveFile topic name (scripts name) =
          (faultEvents name 0 (PyExc.err m) (scripts name), FileResult.done) := by
        unfold driveFile
        rw [ho]
      rw [hdrive]
      exact ⟨rfl, ⟨[], by rw [faultEvents_eq]; rfl⟩⟩
    | none =>
      rw [ho] at hfault
      rcases hr : runLines topic (scripts name).sendScript
          (pyFileLines (scripts name).content) 0 with ⟨ms, r⟩
      rw [hr] at hfault
      cases r with
      | error exc =>
        simp only at hfault
        have : exc = PyExc.err m := Option.some.inj hfault
        subst this
        have hdrive : driveFile topic name (scripts name) =
            (ms.map (Event.published name)
              ++ faultEvents name 0 (PyExc.err m) (scripts name),
              FileResult.done) := by
          unfold driveFile
          rw [ho, hr]
          simp [afterOpen]
        rw [hdrive]
        refine ⟨rfl, ⟨ms.map (Event.published name), ?_⟩⟩
        rw [faultEvents_eq]
      | ok n =>
        simp only at hfault
        have hdrive : driveFile topic name (scripts name) =
            (ms.map (Event.published name)
              ++ (Event.flushAttempt name
                  :: faultEvents name 0 (PyExc.err m) (scripts name)),
              FileResult.done) := by
          unfold driveFile
          rw [ho, hr]
          simp only [afterOpen, successTail, hfault]
        rw [hdrive]
        refine ⟨rfl, ⟨ms.map (Event.published name) ++ [Event.flushAttempt name], ?_⟩⟩
        rw [faultEvents_eq]
        simp
  obtain ⟨hpair, hpre⟩ := hmain
  have hdone : (driveFile topic name (scripts name)).2 = FileResult.done := by
    rw [hpair]
  refine ⟨hdone, hpre, ?_⟩
  rw [runFiles, hpair]

theorem fault_reported_then_relocated_run_continues_witness :
    streamFaultExc "lines" faultNoLogScript
        = some (PyExc.err "KafkaTimeoutError") ∧
    ((driveFile "lines" "b.csv" faultNoLogScript).2 = FileResult.done ∧
    (∃ pre, (driveFile "lines" "b.csv" faultNoLogScript).1 =
      pre ++
        [(if faultNoLogScript.errorLogOk then
            Event.errorRecord "b.csv" 0 (PyExc.err "KafkaTimeoutError")
          else Event.errorRecordFailed "b.csv"),
          (if faultNoLogScript.errorMoveOk then Event.movedToError "b.csv"
          else Event.moveToErrorFailed "b.csv")]) ∧
    runFiles "lines" (fun _ => faultNoLogScript) ("b.csv" :: ["c.csv"]) =
      ((driveFile "lines" "b.csv" faultNoLogScript).1
          ++ (runFiles "lines" (fun _ => faultNoLogScript) ["c.csv"]).1,
        (runFiles "lines" (fun _ => faultNoLogScript) ["c.csv"]).2)) :=
  ⟨by decide,
    fault_reported_then_relocated_run_continues "lines" "b.csv"
      (fun _ => faultNoLogScript) ["c.csv"] "KafkaTimeoutError" (by decide)⟩

/-- C8: when a `KeyboardInterrupt` lands while a file is being streamed, the
current file's loop is aborted, `producer.close()` is invoked, the process
exits with status 130, and no relocation (to archive or error folder) is
performed or attempted for the interrupted file — it stays in
`input_folder`. -/
theorem interrupt_closes_producer_and_exits_130 (env : Env) (cfg : Config)
    (entries : List DirEntry) (pre post : List String) (fname : String)
    (hc : env.configLoad = Except.ok cfg)
    (h3 : ¬(cfg.input_folder = "" ∨ env.inputIsDir = false))
    (hd : env.ensureDirsOk = false → False)
    (h4 : ¬(envFalsy env.kafkaBroker = true ∨ envFalsy env.kafkaTopic = true))
    (h5 : env.producerInitOk = false → False)
    (hlist : env.listing = Except.ok entries)
    (hdecomp : eligibleNames entries = pre ++ fname :: post)
    (hpre : ∀ p ∈ pre,
      (driveFile (envTopic env) p (env.scripts p)).2 = FileResult.done)
    (hnotpre : fname ∉ pre)
    (hopen : (env.scripts fname).openResult = none)
    (hint : (runLines (envTopic env) (env.scripts fname).sendScript
        (pyFileLines (env.scripts fname).content) 0).2
      = Except.error PyExc.keyboardInterrupt) :
    (main env).2 = 130 ∧
    Event.closed ∈ (main env).1 ∧
    ∀ e ∈ (main env).1, Event.relocationOf e ≠ some fname := by
  rcases hr : runLines (envTopic env) (env.scripts fname).sendScript
      (pyFileLines (env.scripts fname).content) 0 with ⟨ms, r⟩
  rw [hr] at hint
  simp only at hint
  subst hint
  have hdrive : driveFile (envTopic env) fname (env.scripts fname) =
      (ms.map (Event.published fname) ++ [Event.closed],
        FileResult.interrupted) := by
    unfold driveFile
    rw [hopen, hr]
    simp [afterOpen]
  have hrun1 : runFiles (envTopic env) env.scripts (fname :: post) =
      (ms.map (Event.published fname) ++ [Event.closed], true) := by
    rw [runFiles, hdrive]
  have hrun : runFiles (envTopic env) env.scripts (eligibleNames entries) =
      ((pre.map fun p => (driveFile (envTopic env) p (env.scripts p)).1).flatten
        ++ (ms.map (Event.published fname) ++ [Event.closed]), true) := by
    rw [hdecomp, runFiles_append pre (fname :: post) hpre, hrun1]
  have hmain : main env =
      ((pre.map fun p => (driveFile (envTopic env) p (env.scripts p)).1).flatten
        ++ (ms.map (Event.published fname) ++ [Event.closed]), 130) := by
    simp only [main, hc, if_neg h3, if_neg hd, if_neg h4, if_neg h5, hlist, hrun]
  rw [hmain]
  refine ⟨rfl, ?_, ?_⟩
  · exact List.mem_append_right _
      (List.mem_append_right _ (List.mem_singleton.mpr rfl))
  · intro e he hrel
    rcases List.mem_append.mp he with he | he
    · obtain ⟨l, hl, hel⟩ := List.mem_flatten.mp he
      obtain ⟨p, hp, rfl⟩ := List.mem_map.mp hl
      rcases driveFile_fileOf e hel with hfo | rfl
      · have := relocationOf_fileOf hrel
        rw [this] at hfo
        exact hnotpre ((Option.some.inj hfo) ▸ hp)
      · cases hrel
    · rcases List.mem_append.mp he with he | he
      · obtain ⟨msg, -, rfl⟩ := List.mem_map.mp he
        cases hrel
      · rw [List.mem_singleton.mp he] at hrel
        cases hrel

theorem interrupt_closes_producer_and_exits_130_witness :
    (main envInterrupted).2 = 130 ∧
    Event.closed ∈ (main envInterrupted).1 ∧
    Event.relocationOf Event.closed ≠ some "b.csv" := by
  have h := interrupt_closes_producer_and_exits_130 envInterrupted
    ⟨"/data/input", "/data/archive", "/data/error"⟩
    [⟨"a.csv", true⟩, ⟨"b.csv", true⟩, ⟨"c.csv", true⟩]
    ["a.csv"] ["c.csv"] "b.csv"
    rfl (by decide) (by decide) (by decide) (by decide) rfl
    (by decide) (by decide) (by decide) (by decide) rfl
  exact ⟨h.1, h.2.1, h.2.2 Event.closed h.2.1⟩

/-- C9: eligible `.csv` files are processed in lexicographically sorted
name order — for any two eligible files `a` and `b` with `a < b`, the whole
run's event trace splits into a prefix holding every publish of `a` (and no
publish of `b`) and a suffix holding every publish of `b` (and no publish of
`a`): all of `a`'s lines reach the broker before any line of `b`. -/
theorem files_processed_in_lexicographic_order (env : Env) (cfg : Config)
    (entries : List DirEntry) (a b : String)
    (hc : env.configLoad = Except.ok cfg)
    (h3 : ¬(cfg.input_folder = "" ∨ env.inputIsDir = false))
    (hd : env.ensureDirsOk = false → False)
    (h4 : ¬(envFalsy env.kafkaBroker = true ∨ envFalsy env.kafkaTopic = true))
    (h5 : env.producerInitOk = false → False)
    (hlist : env.listing = Except.ok entries)
    (hnodup : (entries.map DirEntry.name).Nodup)
    (ha : a ∈ eligibleNames entries) (hb : b ∈ eligibleNames entries)
    (hlt : pyStrLt a.data b.data = true) :
    ∃ U V, (main env).1 = U ++ V ∧
      (∀ e ∈ U, ∀ m, e ≠ Event.published b m) ∧
      (∀ e ∈ V, ∀ m, e ≠ Event.published a m) := by
  obtain ⟨u, v, hdecomp, hbv, hbu, hav⟩ :=
    mem_split_of_pairwise_lt (eligibleNames_pairwise_lt hnodup) ha hb hlt
  have hne : b ≠ a := by
    intro h
    subst h
    have := pyStrLt_asymm _ _ hlt
    rw [this] at hlt
    cases hlt
  obtain ⟨U, V, hsplit, hU, hV⟩ :=
    @runFiles_pub_split (envTopic env) env.scripts a b hne u v hbu hav
  rcases hr : runFiles (envTopic env) env.scripts (eligibleNames entries)
    with ⟨evs, flag⟩
  have hevs : evs = U ++ V := by
    rw [hdecomp] at hr
    rw [hr] at hsplit
    exact hsplit
  cases flag with
  | true =>
    have hmain : main env = (evs, 130) := by
      simp only [main, hc, if_neg h3, if_neg hd, if_neg h4, if_neg h5,
        hlist, hr]
    exact ⟨U, V, by rw [hmain, hevs], hU, hV⟩
  | false =>
    have hmain : main env = (evs ++ [Event.closed], 0) := by
      simp only [main, hc, if_neg h3, if_neg hd, if_neg h4, if_neg h5,
        hlist, hr]
    refine ⟨U, V ++ [Event.closed], ?_, hU, ?_⟩
    · rw [hmain, hevs, List.append_assoc]
    · intro e he m
      rcases List.mem_append.mp he with he | he
      · exact hV e he m
      · rw [List.mem_singleton.mp he]
        intro h
        cases h

theorem files_processed_in_lexicographic_order_witness :
    pyStrLt ("a.csv" : String).data ("b.csv" : String).data = true ∧
    (∃ U V, (main envTwoFiles).1 = U ++ V ∧
      (∀ e ∈ U, ∀ m, e ≠ Event.published "b.csv" m) ∧
      (∀ e ∈ V, ∀ m, e ≠ Event.published "a.csv" m)) :=
  ⟨by decide,
    files_processed_in_lexicographic_order envTwoFiles
      ⟨"/data/input", "/data/archive", "/data/error"⟩
      [⟨"b.csv", true⟩, ⟨"a.csv", true⟩] "a.csv" "b.csv"
      rfl (by decide) (by decide) (by decide) (by decide) rfl
      (by decide) (by decide) (by decide) (by decide)⟩

end CsvPipeline
